import Mathlib

/-!
Verification of the geometric core of the GTK4 Smith-chart widget
(`GTKsmithChart.c` / `GTKsmithChart.h`).

The C code computes with `gdouble`; the embedding models those values as
real numbers (the ideal-arithmetic semantics of the floating-point code).
Pure numeric functions of the source are translated definition by
definition; drawing primitives are modelled as emitted records.
-/

namespace SmithChart

open Real

/-- Normalized impedance (or admittance) point, `tRX` of the source. -/
@[ext]
structure tRX where
  R : ℝ
  X : ℝ

/-- Point in gamma (reflection-coefficient) Cartesian space, `tUV` of the source. -/
@[ext]
structure tUV where
  U : ℝ
  V : ℝ

/-- Macro `SQU(x) ((x)*(x))` from `GTKsmithChart.h`. -/
noncomputable def SQU (x : ℝ) : ℝ := x * x

/-- Macro `SMITH_RADIUS 1.0` from `GTKsmithChart.h`. -/
noncomputable def SMITH_RADIUS : ℝ := 1.0

/-- Macro `DEGtoRAD(x) ((x) / 180.0 * M_PI)` from `GTKsmithChart.h`. -/
noncomputable def DEGtoRAD (x : ℝ) : ℝ := x / 180.0 * Real.pi

/-- Macro `WAVE_RING_RADIUS (1.115 * SMITH_RADIUS)` from `GTKsmithChart.h`. -/
noncomputable def WAVE_RING_RADIUS : ℝ := 1.115 * SMITH_RADIUS

/-- Macro `ANGLE_RING_RADIUS (1.038 * SMITH_RADIUS)` from `GTKsmithChart.h`. -/
noncomputable def ANGLE_RING_RADIUS : ℝ := 1.038 * SMITH_RADIUS

/-- Macro `SRpct(x) (SMITH_RADIUS / 100.0 * (x))` from `GTKsmithChart.h`. -/
noncomputable def SRpct (x : ℝ) : ℝ := SMITH_RADIUS / 100.0 * x

/-- Macro `OUTER_BOUNDARY_WITH_RING` from `GTKsmithChart.h`. -/
noncomputable def OUTER_BOUNDARY_WITH_RING : ℝ :=
  WAVE_RING_RADIUS + (WAVE_RING_RADIUS - ANGLE_RING_RADIUS) / 2.0

/-- Macro `LABELFONTSIZE (SMITH_RADIUS/55.0)` from `GTKsmithChart.h`. -/
noncomputable def LABELFONTSIZE : ℝ := SMITH_RADIUS / 55.0

/-- Macro `STROKE_WIDTH_THIN (SMITH_RADIUS / 2000)` from `GTKsmithChart.h`. -/
noncomputable def STROKE_WIDTH_THIN : ℝ := SMITH_RADIUS / 2000

/-- Macro `STROKE_WIDTH_MINOR (SMITH_RADIUS / 1500)` from `GTKsmithChart.h`. -/
noncomputable def STROKE_WIDTH_MINOR : ℝ := SMITH_RADIUS / 1500

/-- Macro `STROKE_WIDTH_MAJOR (SMITH_RADIUS / 500)` from `GTKsmithChart.h`. -/
noncomputable def STROKE_WIDTH_MAJOR : ℝ := SMITH_RADIUS / 500

/-- Local variable `Zplus1_magSqu` of `RXtoUV`:
`SQU(rx.R) + SQU(rx.X) + (rx.R * 2.0) + 1.0`, the squared magnitude of `Z+1`. -/
noncomputable def Zplus1_magSqu (rx : tRX) : ℝ := SQU rx.R + SQU rx.X + rx.R * 2.0 + 1.0

/-- The coordinate transform `RXtoUV` of `GTKsmithChart.c`:
`rtn.U = (SQU(rx.R) + SQU(rx.X) - 1.0) / Zplus1_magSqu;`
`rtn.V = rx.X * 2.0 / Zplus1_magSqu;`
(in the embedding, division by zero yields the junk value `0` where the C
code would produce a NaN or infinity). -/
noncomputable def RXtoUV (rx : tRX) : tUV :=
  { U := (SQU rx.R + SQU rx.X - 1.0) / Zplus1_magSqu rx
    V := rx.X * 2.0 / Zplus1_magSqu rx }

/-- C library `atan2(y, x)`: the signed full-circle angle of the point
`(x, y)`, modelled as the complex argument (range `(-pi, pi]`, and `0` at the
origin, matching `atan2(0, 0) = 0`). -/
noncomputable def atan2 (y x : ℝ) : ℝ := Complex.arg ⟨x, y⟩

/-- Function `angleR` of `GTKsmithChart.c`: angle of the line from the center
of the `R = r` circle to the transform of `r + jx`:
`atan2( uv.V, uv.U - (rx.R / (rx.R + 1.0)) )`. -/
noncomputable def angleR (rx : tRX) : ℝ :=
  atan2 (RXtoUV rx).V ((RXtoUV rx).U - rx.R / (rx.R + 1.0))

/-- Function `angleX` of `GTKsmithChart.c`: angle of the line from the center
of the `X = x` circle to the transform of `r + jx`:
`atan2( uv.V - 1.0 / rx.X, uv.U - 1.0 )`. -/
noncomputable def angleX (rx : tRX) : ℝ :=
  atan2 ((RXtoUV rx).V - 1.0 / rx.X) ((RXtoUV rx).U - 1.0)

/-- Parameters of one `cairo_arc` emitted through `drawArc` (center, radius in
gamma space, start and end angles). -/
structure ArcSpec where
  center : tUV
  radius : ℝ
  theta1 : ℝ
  theta2 : ℝ

/-- Geometric content of `drawRarc` of `GTKsmithChart.c`:
center `(rArc/(rArc+1), 0)`, radius `1/(rArc+1)`, start and end angles from
`angleR` at `(rArc, xFrom)` and `(rArc, xTo)`. -/
noncomputable def drawRarcSpec (rArc xFrom xTo : ℝ) : ArcSpec :=
  { center := ⟨rArc / (rArc + 1.0), 0.0⟩
    radius := 1.0 / (rArc + 1.0)
    theta1 := angleR ⟨rArc, xFrom⟩
    theta2 := angleR ⟨rArc, xTo⟩ }

/-- Geometric content of `drawXarc` of `GTKsmithChart.c`:
center `(1, 1/xArc)`, radius `fabs(1/xArc)`, start and end angles from
`angleX` at `(rFrom, xArc)` and `(rTo, xArc)`. -/
noncomputable def drawXarcSpec (xArc rFrom rTo : ℝ) : ArcSpec :=
  { center := ⟨1.0, 1.0 / xArc⟩
    radius := |1.0 / xArc|
    theta1 := angleX ⟨rFrom, xArc⟩
    theta2 := angleX ⟨rTo, xArc⟩ }

/-- The pen position of `cairo_arc` at the start angle of an arc. -/
noncomputable def arcStartPoint (a : ArcSpec) : tUV :=
  ⟨a.center.U + a.radius * Real.cos a.theta1, a.center.V + a.radius * Real.sin a.theta1⟩

/-- The pen position of `cairo_arc` at the end angle of an arc. -/
noncomputable def arcEndPoint (a : ArcSpec) : tUV :=
  ⟨a.center.U + a.radius * Real.cos a.theta2, a.center.V + a.radius * Real.sin a.theta2⟩

/-- Function `findTCradial` of `GTKsmithChart.c`: the non-linear
angle-of-transmission-coefficient scale solve.  The source computes
`inter = sin(angleRadians) * unitRadius / coeffRadiuus;`
`inter = atan2( inter / sqrt(1.0 - inter*inter), 1.0 );`
`return sin(M_PI - angleRadians - inter) * coeffRadiuus / sin(angleRadians);`. -/
noncomputable def findTCradial (angleDegrees unitRadius coeffRadiuus : ℝ) : ℝ :=
  let angleRadians := DEGtoRAD angleDegrees
  let inter1 := Real.sin angleRadians * unitRadius / coeffRadiuus
  let inter2 := atan2 (inter1 / Real.sqrt (1.0 - inter1 * inter1)) 1.0
  Real.sin (Real.pi - angleRadians - inter2) * coeffRadiuus / Real.sin angleRadians

/-- Ordered pair of gamma-space points, `tLine` of the source. -/
@[ext]
structure tLine where
  A : tUV
  B : tUV

/-- Macro `CURVE_F 0.25`, the fixed curviness factor of the curve fitter. -/
noncomputable def CURVE_F : ℝ := 0.25

/-- Macro `angle(x) (atan2((x)->B.V - (x)->A.V, (x)->B.U - (x)->A.U))` local to
`bezierControlPoints`. -/
noncomputable def lineAngle (x : tLine) : ℝ := atan2 (x.B.V - x.A.V) (x.B.U - x.A.U)

/-- Function `bezierControlPoints` of `GTKsmithChart.c`: control points for the
middle line between predecessor `g` and successor `l`.  Translated statement by
statement: `lgt` is the length of the middle segment, `h` is first the
synthetic tangent line ending at `l->A` and then the one starting at `g->B`,
and each control point sits on its tangent at distance `lgt * CURVE_F`. -/
noncomputable def bezierControlPoints (g l : tLine) : tUV × tUV :=
  let f := CURVE_F
  let lgt := Real.sqrt ((g.B.U - l.A.U) ^ 2 + (g.B.V - l.A.V) ^ 2)
  let h1 : tLine :=
    { A := ⟨g.B.U - lgt * Real.cos (lineAngle g), g.B.V - lgt * Real.sin (lineAngle g)⟩
      B := l.A }
  let a1 := lineAngle h1
  let p1 : tUV := ⟨g.B.U + lgt * Real.cos a1 * f, g.B.V + lgt * Real.sin a1 * f⟩
  let h2 : tLine :=
    { A := g.B
      B := ⟨l.A.U + lgt * Real.cos (lineAngle l), l.A.V + lgt * Real.sin (lineAngle l)⟩ }
  let a2 := lineAngle h2
  let p2 : tUV := ⟨l.A.U - lgt * Real.cos a2 * f, l.A.V - lgt * Real.sin a2 * f⟩
  (p1, p2)

/-- One `cairo_curve_to` record emitted by `drawBezierCurveOnSmithChart`:
the two control points and the segment endpoint. -/
@[ext]
structure BezierSeg where
  c1 : tUV
  c2 : tUV
  p : tUV

/-- Loop body of `drawBezierCurveOnSmithChart` for loop index `i`
(`1 <= i < length`): neighbor lines `g` and `l` are read at the wrapped
indices `(i + length - 2) % length` .. `(i + length + 1) % length`, the
control points come from `bezierControlPoints`, and the first and last
segments have their outer control points forced to the segment endpoints. -/
noncomputable def bezierSegAt (pts : List tUV) (i : ℕ) : BezierSeg :=
  let n := pts.length
  let g : tLine :=
    { A := pts.getD ((i + n - 2) % n) ⟨0, 0⟩
      B := pts.getD ((i + n - 1) % n) ⟨0, 0⟩ }
  let l : tLine :=
    { A := pts.getD ((i + n) % n) ⟨0, 0⟩
      B := pts.getD ((i + n + 1) % n) ⟨0, 0⟩ }
  let c := bezierControlPoints g l
  { c1 := if i = 1 then g.B else c.1
    c2 := if i = n - 1 then l.A else c.2
    p := pts.getD i ⟨0, 0⟩ }

/-- The cubic segments emitted by `drawBezierCurveOnSmithChart` (the path also
starts with `cairo_move_to(uvPoints[0])`; each element here is one
`cairo_curve_to`). -/
noncomputable def bezierSegments (pts : List tUV) : List BezierSeg :=
  (List.range (pts.length - 1)).map fun j => bezierSegAt pts (j + 1)

/-- Modelled from the spec: loop body of the non-cyclic reference curve fitter
in which the out-of-range neighbor indices are clamped to `[0, length-1]`
instead of taken modulo `length` (truncated natural subtraction performs the
clamping at the low end). -/
noncomputable def bezierSegClampedAt (pts : List tUV) (i : ℕ) : BezierSeg :=
  let n := pts.length
  let g : tLine :=
    { A := pts.getD (i - 2) ⟨0, 0⟩
      B := pts.getD (i - 1) ⟨0, 0⟩ }
  let l : tLine :=
    { A := pts.getD i ⟨0, 0⟩
      B := pts.getD (min (i + 1) (n - 1)) ⟨0, 0⟩ }
  let c := bezierControlPoints g l
  { c1 := if i = 1 then g.B else c.1
    c2 := if i = n - 1 then l.A else c.2
    p := pts.getD i ⟨0, 0⟩ }

/-- Modelled from the spec: the segments of the non-cyclic reference fitter
with clamped neighbor indices (refinement comparison for the wrapped fitter). -/
noncomputable def bezierSegmentsClamped (pts : List tUV) : List BezierSeg :=
  (List.range (pts.length - 1)).map fun j => bezierSegClampedAt pts (j + 1)

/-!
Grid region model and renderer.  The region tables hold exact decimal
constants, so this layer is modelled over `ℚ` and is fully executable; the
half-increment slack in the loop guards (`v <= stop + inc/2`) makes the
iteration counts of the C `gdouble` loops agree with exact arithmetic.
-/

/-- Region band of the grid density table, `tRegion` of the source
(`region`, `minorDiv`, `minorPerMajorDiv`).  `minorPerMajorDiv` also carries
the sentinels `END = -1` and `SPECIAL_CASE = 0`. -/
structure tRegion where
  region : ℚ
  minorDiv : ℚ
  minorPerMajorDiv : ℤ
deriving DecidableEq, Repr

/-- Sentinel `END (-1)` of `GTKsmithChart.h`. -/
def END_SENTINEL : ℤ := -1

/-- Sentinel `SPECIAL_CASE (0)` of `GTKsmithChart.h`. -/
def SPECIAL_CASE : ℤ := 0

/-- The `stdGrid` region table of `GTKsmithChart.c`. -/
def stdGrid : List tRegion :=
  [⟨0, 1/100, 5⟩, ⟨1/5, 1/50, 5⟩, ⟨1/2, 1/20, 2⟩, ⟨1, 1/10, 2⟩,
   ⟨2, 1/5, 5⟩, ⟨5, 1, 5⟩, ⟨10, 2, 5⟩, ⟨20, 10, 5⟩,
   ⟨50, 0, END_SENTINEL⟩]

/-- The `sparseGrid` region table of `GTKsmithChart.c`. -/
def sparseGrid : List tRegion :=
  [⟨0, 1/10, 5⟩, ⟨1, 1/5, 5⟩, ⟨2, 1/2, 2⟩,
   ⟨4, 1, 6⟩, ⟨10, 5, 2⟩, ⟨20, 30, SPECIAL_CASE⟩,
   ⟨50, 0, END_SENTINEL⟩]

/-- Stroke weight selected by `cairo_set_line_width` in the grid sweep
(`STROKE_WIDTH_MAJOR` vs `STROKE_WIDTH_MINOR`). -/
inductive StrokeWeight where
  | minor : StrokeWeight
  | major : StrokeWeight
deriving DecidableEq, Repr

/-- Which arc family a grid stroke belongs to (`drawRarc` vs `drawXarc`). -/
inductive ArcKind where
  | rarc : ArcKind
  | xarc : ArcKind
deriving DecidableEq, Repr

/-- One grid arc emitted by `drawBlock` or `drawImmittanceGrid`: the stroke
weight, the arc family, the swept value (`rArc` or `xArc`) and the two
bounds passed to `drawRarc` / `drawXarc`. -/
structure GridArc where
  weight : StrokeWeight
  kind : ArcKind
  value : ℚ
  lo : ℚ
  hi : ℚ
deriving DecidableEq, Repr

/-- Normalized impedance point with exact rational coordinates, the grid-layer
counterpart of `tRX`. -/
structure tRXq where
  R : ℚ
  X : ℚ
deriving DecidableEq, Repr

/-- Iteration count of the C loop
`for( v = start + inc; v <= stop + inc/2.0; v += inc )`
in exact arithmetic: the largest `k >= 1` with `start + k*inc <= stop + inc/2`
(0 when there is none), i.e. `floor((stop - start)/inc + 1/2)` clamped to `ℕ`.
Faithful for `inc > 0`, which holds for every call the renderer makes. -/
def numSteps (start stop inc : ℚ) : ℕ := (Int.floor ((stop - start) / inc + 1/2)).toNat

/-- Function `drawBlock` of `GTKsmithChart.c`: sweep resistance values from
`RXstart.R + minorInc` to `RXend.R` and reactance values from
`RXstart.X + minorInc` to `RXend.X`; the tick counters start at 1 and every
multiple of `minorPerMajor` is stroked with the major weight; each resistance
step draws `drawRarc(r, RXend.X, RXstart.X)` and its mirror
`drawRarc(r, -RXstart.X, -RXend.X)`, each reactance step draws
`drawXarc(x, RXstart.R, RXend.R)` and `drawXarc(-x, RXend.R, RXstart.R)`. -/
def drawBlock (RXstart RXend : tRXq) (minorInc : ℚ) (minorPerMajor : ℤ) : List GridArc :=
  ((List.range (numSteps RXstart.R RXend.R minorInc)).map fun (k : ℕ) =>
    let r := RXstart.R + ((k : ℚ) + 1) * minorInc
    let w := if ((k : ℤ) + 1) % minorPerMajor = 0 then StrokeWeight.major else StrokeWeight.minor
    [(⟨w, ArcKind.rarc, r, RXend.X, RXstart.X⟩ : GridArc),
     ⟨w, ArcKind.rarc, r, -RXstart.X, -RXend.X⟩]).flatten
  ++
  ((List.range (numSteps RXstart.X RXend.X minorInc)).map fun (k : ℕ) =>
    let x := RXstart.X + ((k : ℚ) + 1) * minorInc
    let w := if ((k : ℤ) + 1) % minorPerMajor = 0 then StrokeWeight.major else StrokeWeight.minor
    [(⟨w, ArcKind.xarc, x, RXstart.R, RXend.R⟩ : GridArc),
     ⟨w, ArcKind.xarc, -x, RXend.R, RXstart.R⟩]).flatten

/-- The four hand-authored arcs of the `SPECIAL_CASE` branch of
`drawImmittanceGrid` (the area near the G=20 circle of Form ZY-01-N),
all stroked with the major weight. -/
def specialCaseArcs : List GridArc :=
  [⟨StrokeWeight.major, ArcKind.rarc, 20, 50, 20⟩,
   ⟨StrokeWeight.major, ArcKind.rarc, 20, -20, -50⟩,
   ⟨StrokeWeight.major, ArcKind.xarc, 20, 20, 50⟩,
   ⟨StrokeWeight.major, ArcKind.xarc, -20, 50, 20⟩]

/-- Loop body of the zone loop of `drawImmittanceGrid` for one band `index`:
either the `SPECIAL_CASE` hand-authored arcs, or two `drawBlock` calls — the
first away from the centerline, the second around the centerline, and the
second one with `minorPerMajor` overridden to 3 when `index == 7`
(the `// nobody likes this` hack of the source). -/
def bandArcs (zones : List tRegion) (index : ℕ) : List GridArc :=
  let z := zones.getD index ⟨0, 0, 0⟩
  let znext := zones.getD (index + 1) ⟨0, 0, 0⟩
  if z.minorPerMajorDiv = SPECIAL_CASE then
    specialCaseArcs
  else
    drawBlock ⟨0, z.region⟩ ⟨znext.region, znext.region⟩ z.minorDiv z.minorPerMajorDiv
    ++ drawBlock ⟨z.region, 0⟩ ⟨znext.region, z.region⟩ z.minorDiv
        (if index = 7 then 3 else z.minorPerMajorDiv)

/-- Number of bands the zone loop of `drawImmittanceGrid` processes: the loop
runs while `zones[index].minorPerMajorDiv != END`. -/
def activeBands (zones : List tRegion) : ℕ :=
  (zones.takeWhile fun z => z.minorPerMajorDiv ≠ END_SENTINEL).length

/-- All grid arcs emitted by the zone loop of `drawImmittanceGrid` (the fixed
post-loop strokes — centerline, outer circle, the four closing arcs at 50, the
sparse-table extras and the center dot — are outside this band sweep). -/
def gridBandArcs (zones : List tRegion) : List GridArc :=
  ((List.range (activeBands zones)).map fun index => bandArcs zones index).flatten

/-!
Options record and public drawing entry points.  A cairo context is modelled
by its current transformation matrix together with the stream of primitive
calls it receives; each public entry point returns its emission stream, the
contents of the caller-owned options record after the call (the C sources
store into `*pOptions` exactly once, in `drawSmithChart`), and the context
matrix after the call (`cairo_save`/`cairo_restore` bracket every body).
-/

/-- Cairo affine matrix (`cairo_matrix_t`): maps `(x, y)` to
`(xx*x + xy*y + x0, yx*x + yy*y + y0)`. -/
structure CMatrix where
  xx : ℝ
  yx : ℝ
  xy : ℝ
  yy : ℝ
  x0 : ℝ
  y0 : ℝ

/-- Effect of `cairo_translate(cr, tx, ty)` on the current matrix. -/
noncomputable def translateM (m : CMatrix) (tx ty : ℝ) : CMatrix :=
  { m with x0 := m.xx * tx + m.xy * ty + m.x0, y0 := m.yx * tx + m.yy * ty + m.y0 }

/-- Effect of `cairo_scale(cr, sx, sy)` on the current matrix. -/
noncomputable def scaleM (m : CMatrix) (sx sy : ℝ) : CMatrix :=
  { m with xx := m.xx * sx, yx := m.yx * sx, xy := m.xy * sy, yy := m.yy * sy }

/-- The boolean option flags of `tSmithOptions`. -/
structure SmithFlags where
  bShowRX : Bool
  bShowGB : Bool
  bShowLabels : Bool
  bShowStrings : Bool
  bDrawRing : Bool
  bSparceGB : Bool

/-- A `GdkRGBA` color. -/
structure RGBA where
  red : ℝ
  green : ℝ
  blue : ℝ
  alpha : ℝ

/-- The caller-owned options record `tSmithOptions` of `GTKsmithChart.h`.
The source field `colorAnnotation` is renamed `colorAnnotate` here (the last
field name is reserved in this development); `annotationFont` is a nullable
string and `annotationFontSize` is a `gint`. -/
structure tSmithOptions where
  flags : SmithFlags
  lineWidth : ℝ
  pointWidth : ℝ
  colorRXgrid : RGBA
  colorGBgrid : RGBA
  colorRXtext : RGBA
  colorGBtext : RGBA
  colorRing : RGBA
  colorLine : RGBA
  colorAnnotate : RGBA
  annotationFont : Option String
  annotationFontSize : ℤ
  matrix : CMatrix

/-- Macro `LABEL_FONT "Nimbus Sans"` of `GTKsmithChart.h`. -/
def LABEL_FONT : String := "Nimbus Sans"

/-- The static `defaultOptions` of `GTKsmithChart.c`.  Unset fields of a C
static are zero-initialized (`annotationFont = NULL`, `matrix` all zero), and
the initializer `.annotationFontSize = 0.4` truncates to 0 because the header
declares that field as `gint`. -/
noncomputable def defaultOptions : tSmithOptions :=
  { flags :=
      { bShowRX := true, bShowGB := false, bShowLabels := true,
        bShowStrings := true, bDrawRing := true, bSparceGB := true }
    lineWidth := 0.25
    pointWidth := 0.6
    colorRXgrid := ⟨0.7, 0.0, 0.0, 1.0⟩
    colorGBgrid := ⟨0.0, 0.5, 0.5, 1.0⟩
    colorRXtext := ⟨0.5, 0.0, 0.0, 1.0⟩
    colorGBtext := ⟨0.0, 0.5, 0.5, 1.0⟩
    colorRing := ⟨0.0, 0.0, 0.0, 1.0⟩
    colorLine := ⟨0.0, 0.0, 0.5, 1.0⟩
    colorAnnotate := ⟨0.0, 0.5, 0.0, 1.0⟩
    annotationFont := none
    annotationFontSize := 0
    matrix := ⟨0, 0, 0, 0, 0, 0⟩ }

/-- The `if( pOptions == NULL ) pOptions = &defaultOptions;` prologue shared
by every public drawing entry point. -/
noncomputable def resolveOptions : Option tSmithOptions → tSmithOptions
  | none => defaultOptions
  | some o => o

/-- Primitive calls a drawing entry point issues to its cairo context
(text helpers `leftJustifiedClearText` / `rightJustifiedClearText` are kept
as single opaque-background text primitives of the drawing sink). -/
inductive Emission where
  | save : Emission
  | restore : Emission
  | setMatrix : CMatrix → Emission
  | setLineWidth : ℝ → Emission
  | setSourceRGBA : RGBA → Emission
  | newPath : Emission
  | moveTo : ℝ → ℝ → Emission
  | lineTo : ℝ → ℝ → Emission
  | curveTo : ℝ → ℝ → ℝ → ℝ → ℝ → ℝ → Emission
  | arc : ℝ → ℝ → ℝ → ℝ → ℝ → Emission
  | fill : Emission
  | stroke : Emission
  | selectFont : String → Emission
  | setFontSize : ℝ → Emission
  | textLeft : String → ℝ → ℝ → Emission
  | textRight : String → ℝ → ℝ → Emission

/-- Public entry point `drawLineOnSmithChart` of `GTKsmithChart.c`: resolve
NULL options, save, restore the cached chart transform, set width and color,
stroke one segment, restore.  Returns (emissions, options record after the
call, context matrix after the call). -/
noncomputable def drawLineOnSmithChart (crM : CMatrix) (uvFrom uvTo : tUV)
    (pOptions : Option tSmithOptions) : List Emission × tSmithOptions × CMatrix :=
  let opts := resolveOptions pOptions
  ([Emission.save, Emission.setMatrix opts.matrix,
    Emission.setLineWidth (SRpct opts.lineWidth), Emission.setSourceRGBA opts.colorLine,
    Emission.newPath, Emission.moveTo uvFrom.U uvFrom.V, Emission.lineTo uvTo.U uvTo.V,
    Emission.stroke, Emission.restore],
   opts, crM)

/-- Public entry point `drawLineArrayOnSmithChart` of `GTKsmithChart.c`. -/
noncomputable def drawLineArrayOnSmithChart (crM : CMatrix) (uvPoints : List tUV)
    (pOptions : Option tSmithOptions) : List Emission × tSmithOptions × CMatrix :=
  let opts := resolveOptions pOptions
  ([Emission.save, Emission.setMatrix opts.matrix,
    Emission.setLineWidth (SRpct opts.lineWidth), Emission.setSourceRGBA opts.colorLine,
    Emission.newPath]
   ++ ((List.range uvPoints.length).map fun i =>
        let p := uvPoints.getD i ⟨0, 0⟩
        if i = 0 then Emission.moveTo p.U p.V else Emission.lineTo p.U p.V)
   ++ [Emission.stroke, Emission.restore],
   opts, crM)

/-- Public entry point `drawBezierCurveOnSmithChart` of `GTKsmithChart.c`:
the smooth-curve fitter; the cubic segments are the ones of
`bezierSegments`. -/
noncomputable def drawBezierCurveOnSmithChart (crM : CMatrix) (uvPoints : List tUV)
    (pOptions : Option tSmithOptions) : List Emission × tSmithOptions × CMatrix :=
  let opts := resolveOptions pOptions
  ([Emission.save, Emission.setMatrix opts.matrix,
    Emission.setLineWidth (SRpct opts.lineWidth), Emission.setSourceRGBA opts.colorLine,
    Emission.newPath,
    Emission.moveTo (uvPoints.getD 0 ⟨0, 0⟩).U (uvPoints.getD 0 ⟨0, 0⟩).V]
   ++ (bezierSegments uvPoints).map (fun s =>
        Emission.curveTo s.c1.U s.c1.V s.c2.U s.c2.V s.p.U s.p.V)
   ++ [Emission.stroke, Emission.restore],
   opts, crM)

/-- Public entry point `drawPointOnSmithChart` of `GTKsmithChart.c`. -/
noncomputable def drawPointOnSmithChart (crM : CMatrix) (uvPoint : tUV)
    (pOptions : Option tSmithOptions) : List Emission × tSmithOptions × CMatrix :=
  let opts := resolveOptions pOptions
  ([Emission.save, Emission.setMatrix opts.matrix,
    Emission.setLineWidth 0.0, Emission.setSourceRGBA opts.colorLine,
    Emission.newPath,
    Emission.arc uvPoint.U uvPoint.V (SRpct opts.pointWidth) 0 (2.0 * Real.pi),
    Emission.fill, Emission.stroke, Emission.restore],
   opts, crM)

/-- Public entry point `annotatePointOnSmithChart` of `GTKsmithChart.c`:
falls back to `LABEL_FONT` when no annotation font is configured and to
`2 * LABELFONTSIZE` when the annotation font size is 0 (C truthiness of the
`gint` field). -/
noncomputable def annotatePointOnSmithChart (crM : CMatrix) (sLabel : String) (uv : tUV)
    (bLeft : Bool) (pOptions : Option tSmithOptions) :
    List Emission × tSmithOptions × CMatrix :=
  let opts := resolveOptions pOptions
  let fontSize : ℝ :=
    if opts.annotationFontSize ≠ 0 then
      (opts.annotationFontSize : ℝ) / 100.0 * SMITH_RADIUS
    else 2 * LABELFONTSIZE
  ([Emission.save, Emission.setMatrix opts.matrix,
    Emission.setLineWidth 0.0, Emission.setSourceRGBA opts.colorAnnotate,
    Emission.selectFont (opts.annotationFont.getD LABEL_FONT),
    Emission.setFontSize fontSize]
   ++ [if bLeft then
         Emission.textLeft sLabel (uv.U + fontSize * 0.5) (uv.V - fontSize * 0.3)
       else
         Emission.textRight sLabel (uv.U - fontSize * 0.5) (uv.V - fontSize * 0.3)]
   ++ [Emission.restore],
   opts, crM)

/-- Effect of the chart composer `drawSmithChart` of `GTKsmithChart.c` on the
caller-owned options record: when the rings are drawn the radius is shrunk by
`OUTER_BOUNDARY_WITH_RING / SMITH_RADIUS`; the context is translated to the
chart center and scaled by `(radius, -radius)`; and the composer ends with
`cairo_get_matrix( cr, &pOptions->matrix )`, the sole store into
`*pOptions` anywhere in the sources — every other field is left as passed.
The grid, label, and ring bodies draw through the context only and receive
`pOptions` read-only. -/
noncomputable def drawSmithChart (crM : CMatrix) (centerX centerY radius : ℝ)
    (pOptions : Option tSmithOptions) : tSmithOptions :=
  let opts := resolveOptions pOptions
  let radius2 :=
    if opts.flags.bDrawRing then radius / (OUTER_BOUNDARY_WITH_RING / SMITH_RADIUS)
    else radius
  { opts with matrix := scaleM (translateM crM centerX centerY) radius2 (-radius2) }

/-!
Theorems for the claims.
-/

/-- C1: for every finite normalized impedance, `RXtoUV` returns
`U = (R^2+X^2-1)/D` and `V = 2X/D` with `D = R^2+X^2+2R+1`; the denominator
vanishes exactly at `R = -1, X = 0` (the sole undefined input);
`RXtoUV({1,0}) = {0,0}` (matched load at chart center) and
`RXtoUV({0,0}) = {-1,0}` (short circuit at left pole). -/
theorem claim_C1 :
    (∀ rx : tRX, Zplus1_magSqu rx = 0 ↔ rx.R = -1 ∧ rx.X = 0) ∧
    (∀ rx : tRX,
      RXtoUV rx =
        ⟨(rx.R ^ 2 + rx.X ^ 2 - 1) / (rx.R ^ 2 + rx.X ^ 2 + 2 * rx.R + 1),
         2 * rx.X / (rx.R ^ 2 + rx.X ^ 2 + 2 * rx.R + 1)⟩) ∧
    RXtoUV ⟨1, 0⟩ = ⟨0, 0⟩ ∧ RXtoUV ⟨0, 0⟩ = ⟨-1, 0⟩ := by
  refine ⟨fun rx => ?_, fun rx => ?_, ?_, ?_⟩
  · simp only [Zplus1_magSqu, SQU]
    constructor
    · intro h
      have hR : (rx.R + 1) ^ 2 = 0 := by nlinarith [sq_nonneg (rx.R + 1), sq_nonneg rx.X]
      have hX : rx.X ^ 2 = 0 := by nlinarith [sq_nonneg (rx.R + 1), sq_nonneg rx.X]
      constructor
      · have := (pow_eq_zero_iff two_ne_zero).mp hR
        linarith
      · exact (pow_eq_zero_iff two_ne_zero).mp hX
    · rintro ⟨h1, h2⟩
      rw [h1, h2]; ring
  · simp only [RXtoUV, Zplus1_magSqu, SQU, tUV.mk.injEq]
    constructor <;> ring_nf
  · simp only [RXtoUV, Zplus1_magSqu, SQU, tUV.mk.injEq]
    norm_num
  · simp only [RXtoUV, Zplus1_magSqu, SQU, tUV.mk.injEq]
    norm_num

/-- C2, counterexample: the claim asserts the reflection-magnitude bound for
every input with `R > -1`, but at `R = -1/2, X = 0` (which satisfies `R > -1`)
the transform gives `U = -3, V = 0`, so `U^2 + V^2 = 9`, far above `1 + eps`
for any small tolerance. -/
theorem claim_C2_counterexample :
    ((-1/2 : ℝ) > -1) ∧
    (RXtoUV ⟨-1/2, 0⟩).U ^ 2 + (RXtoUV ⟨-1/2, 0⟩).V ^ 2 = 9 := by
  constructor
  · norm_num
  · simp only [RXtoUV, Zplus1_magSqu, SQU]
    norm_num

/-- C2, amended: the bound holds on the physically realizable half plane
`R >= 0`: there `U^2 + V^2 <= 1`, with equality exactly when `R = 0` (the unit
boundary) and strictly below 1 whenever `R > 0`. -/
theorem claim_C2_amended (rx : tRX) (h : 0 ≤ rx.R) :
    (RXtoUV rx).U ^ 2 + (RXtoUV rx).V ^ 2 ≤ 1 ∧
    ((RXtoUV rx).U ^ 2 + (RXtoUV rx).V ^ 2 = 1 ↔ rx.R = 0) ∧
    (0 < rx.R → (RXtoUV rx).U ^ 2 + (RXtoUV rx).V ^ 2 < 1) := by
  have hD : 0 < Zplus1_magSqu rx := by
    simp only [Zplus1_magSqu, SQU]
    nlinarith [sq_nonneg rx.R, sq_nonneg rx.X]
  have key : (RXtoUV rx).U ^ 2 + (RXtoUV rx).V ^ 2 = 1 - 4 * rx.R / Zplus1_magSqu rx := by
    simp only [RXtoUV, Zplus1_magSqu, SQU] at hD ⊢
    field_simp
    ring
  rw [key]
  have hq : 0 ≤ 4 * rx.R / Zplus1_magSqu rx := by positivity
  refine ⟨by linarith, ?_, fun hpos => ?_⟩
  · rw [sub_eq_self, div_eq_zero_iff]
    constructor
    · rintro (h4 | h0)
      · linarith
      · exact absurd h0 (ne_of_gt hD)
    · intro h0; left; rw [h0]; ring
  · have : 0 < 4 * rx.R / Zplus1_magSqu rx := by positivity
    linarith

/-- C2, witness: the amended theorem applied at the concrete interior point
`R = 1, X = 2`. -/
theorem claim_C2_witness :
    (0 : ℝ) ≤ 1 ∧
    ((RXtoUV ⟨1, 2⟩).U ^ 2 + (RXtoUV ⟨1, 2⟩).V ^ 2 ≤ 1 ∧
     ((RXtoUV ⟨1, 2⟩).U ^ 2 + (RXtoUV ⟨1, 2⟩).V ^ 2 = 1 ↔ (1 : ℝ) = 0) ∧
     ((0 : ℝ) < 1 → (RXtoUV ⟨1, 2⟩).U ^ 2 + (RXtoUV ⟨1, 2⟩).V ^ 2 < 1)) :=
  ⟨by norm_num, claim_C2_amended ⟨1, 2⟩ (by norm_num)⟩

/-- C5: fitting exactly 2 points yields exactly one cubic segment whose first
control point is the first input point and whose second control point is the
second input point (a straight line), for every pair of inputs — the
`i == 1` and `i == length - 1` overrides both fire on the single segment. -/
theorem claim_C5 (p0 p1 : tUV) : bezierSegments [p0, p1] = [⟨p0, p1, p1⟩] := by
  simp [bezierSegments, bezierSegAt, List.range_succ]

/-- Evaluation of the floor-based loop count at concrete bounds. -/
theorem numSteps_eval (start stop inc : ℚ) (n : ℕ)
    (h1 : (n : ℚ) ≤ (stop - start) / inc + 1/2)
    (h2 : (stop - start) / inc + 1/2 < n + 1) : numSteps start stop inc = n := by
  unfold numSteps
  rw [show Int.floor ((stop - start) / inc + 1/2) = (n : ℤ) from
    Int.floor_eq_iff.mpr ⟨by push_cast; linarith, by push_cast; linarith⟩]
  simp

/-- Concrete value of the first (off-axis) grid block of band 7 of the
standard table: 5 resistance steps with the major stroke on the 5th, and 3
reactance steps, all minor. -/
theorem band7_block1_eval : drawBlock ⟨0, 20⟩ ⟨50, 50⟩ 10 5 =
    [⟨.minor, .rarc, 10, 50, 20⟩, ⟨.minor, .rarc, 10, -20, -50⟩,
     ⟨.minor, .rarc, 20, 50, 20⟩, ⟨.minor, .rarc, 20, -20, -50⟩,
     ⟨.minor, .rarc, 30, 50, 20⟩, ⟨.minor, .rarc, 30, -20, -50⟩,
     ⟨.minor, .rarc, 40, 50, 20⟩, ⟨.minor, .rarc, 40, -20, -50⟩,
     ⟨.major, .rarc, 50, 50, 20⟩, ⟨.major, .rarc, 50, -20, -50⟩,
     ⟨.minor, .xarc, 30, 0, 50⟩, ⟨.minor, .xarc, -30, 50, 0⟩,
     ⟨.minor, .xarc, 40, 0, 50⟩, ⟨.minor, .xarc, -40, 50, 0⟩,
     ⟨.minor, .xarc, 50, 0, 50⟩, ⟨.minor, .xarc, -50, 50, 0⟩] := by
  rw [drawBlock, numSteps_eval 0 50 10 5 (by norm_num) (by norm_num),
    numSteps_eval 20 50 10 3 (by norm_num) (by norm_num)]
  norm_num [List.range_succ]

/-- Concrete value of the second (centerline) grid block of band 7 with the
overridden ticks-per-major 3: the major stroke falls on the 3rd resistance
step (r = 50). -/
theorem band7_block2_eval : drawBlock ⟨20, 0⟩ ⟨50, 20⟩ 10 3 =
    [⟨.minor, .rarc, 30, 20, 0⟩, ⟨.minor, .rarc, 30, 0, -20⟩,
     ⟨.minor, .rarc, 40, 20, 0⟩, ⟨.minor, .rarc, 40, 0, -20⟩,
     ⟨.major, .rarc, 50, 20, 0⟩, ⟨.major, .rarc, 50, 0, -20⟩,
     ⟨.minor, .xarc, 10, 20, 50⟩, ⟨.minor, .xarc, -10, 50, 20⟩,
     ⟨.minor, .xarc, 20, 20, 50⟩, ⟨.minor, .xarc, -20, 50, 20⟩] := by
  rw [drawBlock, numSteps_eval 20 50 10 3 (by norm_num) (by norm_num),
    numSteps_eval 0 20 10 2 (by norm_num) (by norm_num)]
  norm_num [List.range_succ]

/-- Band 7 of the standard grid is processed as two `drawBlock` calls, the
second with the ticks-per-major override to 3. -/
theorem bandArcs_stdGrid_seven :
    bandArcs stdGrid 7 =
      drawBlock ⟨0, 20⟩ ⟨50, 50⟩ 10 5 ++ drawBlock ⟨20, 0⟩ ⟨50, 20⟩ 10 3 := by
  norm_num [bandArcs, stdGrid, SPECIAL_CASE]

/-- C7, counterexample: in the band of table index 7 (boundary value 20) of
the standard grid, the first grid block keeps the table's ticks-per-major 5,
so its 3rd minor step (the resistance arc at r = 30) is stroked with the
minor weight — contradicting the claim that major-weight strokes fall on
every 3rd minor step throughout that band. -/
theorem claim_C7_counterexample :
    (⟨StrokeWeight.minor, ArcKind.rarc, 30, 50, 20⟩ : GridArc) ∈ bandArcs stdGrid 7 ∧
    (⟨StrokeWeight.major, ArcKind.rarc, 30, 50, 20⟩ : GridArc) ∉ bandArcs stdGrid 7 := by
  rw [bandArcs_stdGrid_seven, band7_block1_eval, band7_block2_eval]
  norm_num
  decide

/-- C7, amended: band index 7 overrides ticks-per-major to 3 only for its
second (centerline-adjacent) grid block, even though the region table stores
5 for it; the first block of the band keeps the table value 5.  In the
centerline block the 3rd minor step (r = 50) is indeed stroked major, and in
the first block the major stroke falls on the 5th step instead. -/
theorem claim_C7_amended :
    bandArcs stdGrid 7 =
      drawBlock ⟨0, 20⟩ ⟨50, 50⟩ 10 5 ++ drawBlock ⟨20, 0⟩ ⟨50, 20⟩ 10 3 ∧
    (stdGrid.getD 7 ⟨0, 0, 0⟩).minorPerMajorDiv = 5 ∧
    (⟨StrokeWeight.major, ArcKind.rarc, 50, 20, 0⟩ : GridArc) ∈
      drawBlock ⟨20, 0⟩ ⟨50, 20⟩ 10 3 ∧
    (⟨StrokeWeight.major, ArcKind.rarc, 50, 50, 20⟩ : GridArc) ∈
      drawBlock ⟨0, 20⟩ ⟨50, 50⟩ 10 5 := by
  refine ⟨bandArcs_stdGrid_seven, rfl, ?_, ?_⟩
  · rw [band7_block2_eval]; norm_num
  · rw [band7_block1_eval]; norm_num

/-- C8, counterexample: neither precondition violation is signaled.  At
`R = -1, X = 0` the denominator is 0 and `RXtoUV` silently returns the
junk value of the unguarded division (NaN/inf in C, `0` under the embedding
convention) instead of an invalid-argument condition, and the curve fitter
accepts a 1-point sequence, silently emitting a path with no cubic segment. -/
theorem claim_C8_counterexample :
    Zplus1_magSqu ⟨-1, 0⟩ = 0 ∧ RXtoUV ⟨-1, 0⟩ = ⟨0, 0⟩ ∧
    bezierSegments [(⟨0, 0⟩ : tUV)] = [] := by
  refine ⟨?_, ?_, ?_⟩
  · simp only [Zplus1_magSqu, SQU]; norm_num
  · simp only [RXtoUV, Zplus1_magSqu, SQU, tUV.mk.injEq]; norm_num
  · simp [bezierSegments]

/-- C8, amended: the API performs no validation: whenever the denominator
`D` vanishes, `RXtoUV` silently returns the junk value of the unguarded
division, and point sequences of fewer than 2 points make the curve fitter
silently emit a path without any cubic segment; callers must avoid these
inputs themselves. -/
theorem claim_C8_amended :
    (∀ rx : tRX, Zplus1_magSqu rx = 0 → RXtoUV rx = ⟨0, 0⟩) ∧
    (∀ p : tUV, bezierSegments [p] = []) ∧
    bezierSegments ([] : List tUV) = [] := by
  refine ⟨fun rx hD => ?_, fun p => ?_, ?_⟩
  · simp [RXtoUV, hD]
  · simp [bezierSegments]
  · simp [bezierSegments]

/-- C8, witness: the amended theorem applied at the degenerate input
`R = -1, X = 0`. -/
theorem claim_C8_witness :
    Zplus1_magSqu ⟨-1, 0⟩ = 0 ∧ RXtoUV ⟨-1, 0⟩ = ⟨0, 0⟩ :=
  ⟨by simp only [Zplus1_magSqu, SQU]; norm_num,
   claim_C8_amended.1 ⟨-1, 0⟩ (by simp only [Zplus1_magSqu, SQU]; norm_num)⟩

/-- C9: chart composition changes only the cached-transform field of the
caller-owned options (every other field — flags, widths, colors, font
selection — is returned as passed), and each of the other public drawing
entry points leaves the options record untouched, leaves the context matrix
as it found it (save/restore), and re-applies the cached transform as its
first drawing action after the save. -/
theorem claim_C9 :
    (∀ (crM : CMatrix) (cx cy radius : ℝ) (opts : tSmithOptions),
      (drawSmithChart crM cx cy radius (some opts)).flags = opts.flags ∧
      (drawSmithChart crM cx cy radius (some opts)).lineWidth = opts.lineWidth ∧
      (drawSmithChart crM cx cy radius (some opts)).pointWidth = opts.pointWidth ∧
      (drawSmithChart crM cx cy radius (some opts)).colorRXgrid = opts.colorRXgrid ∧
      (drawSmithChart crM cx cy radius (some opts)).colorGBgrid = opts.colorGBgrid ∧
      (drawSmithChart crM cx cy radius (some opts)).colorRXtext = opts.colorRXtext ∧
      (drawSmithChart crM cx cy radius (some opts)).colorGBtext = opts.colorGBtext ∧
      (drawSmithChart crM cx cy radius (some opts)).colorRing = opts.colorRing ∧
      (drawSmithChart crM cx cy radius (some opts)).colorLine = opts.colorLine ∧
      (drawSmithChart crM cx cy radius (some opts)).colorAnnotate = opts.colorAnnotate ∧
      (drawSmithChart crM cx cy radius (some opts)).annotationFont = opts.annotationFont ∧
      (drawSmithChart crM cx cy radius (some opts)).annotationFontSize
        = opts.annotationFontSize) ∧
    (∀ (crM : CMatrix) (uvF uvT : tUV) (opts : tSmithOptions),
      (drawLineOnSmithChart crM uvF uvT (some opts)).2.1 = opts ∧
      (drawLineOnSmithChart crM uvF uvT (some opts)).2.2 = crM ∧
      (drawLineOnSmithChart crM uvF uvT (some opts)).1.take 2
        = [Emission.save, Emission.setMatrix opts.matrix]) ∧
    (∀ (crM : CMatrix) (pts : List tUV) (opts : tSmithOptions),
      (drawLineArrayOnSmithChart crM pts (some opts)).2.1 = opts ∧
      (drawLineArrayOnSmithChart crM pts (some opts)).2.2 = crM ∧
      (drawLineArrayOnSmithChart crM pts (some opts)).1.take 2
        = [Emission.save, Emission.setMatrix opts.matrix]) ∧
    (∀ (crM : CMatrix) (pts : List tUV) (opts : tSmithOptions),
      (drawBezierCurveOnSmithChart crM pts (some opts)).2.1 = opts ∧
      (drawBezierCurveOnSmithChart crM pts (some opts)).2.2 = crM ∧
      (drawBezierCurveOnSmithChart crM pts (some opts)).1.take 2
        = [Emission.save, Emission.setMatrix opts.matrix]) ∧
    (∀ (crM : CMatrix) (uv : tUV) (opts : tSmithOptions),
      (drawPointOnSmithChart crM uv (some opts)).2.1 = opts ∧
      (drawPointOnSmithChart crM uv (some opts)).2.2 = crM ∧
      (drawPointOnSmithChart crM uv (some opts)).1.take 2
        = [Emission.save, Emission.setMatrix opts.matrix]) ∧
    (∀ (crM : CMatrix) (s : String) (uv : tUV) (bLeft : Bool) (opts : tSmithOptions),
      (annotatePointOnSmithChart crM s uv bLeft (some opts)).2.1 = opts ∧
      (annotatePointOnSmithChart crM s uv bLeft (some opts)).2.2 = crM ∧
      (annotatePointOnSmithChart crM s uv bLeft (some opts)).1.take 2
        = [Emission.save, Emission.setMatrix opts.matrix]) :=
  ⟨fun _ _ _ _ _ => ⟨rfl, rfl, rfl, rfl, rfl, rfl, rfl, rfl, rfl, rfl, rfl, rfl⟩,
   fun _ _ _ _ => ⟨rfl, rfl, rfl⟩,
   fun _ _ _ => ⟨rfl, rfl, rfl⟩,
   fun _ _ _ => ⟨rfl, rfl, rfl⟩,
   fun _ _ _ => ⟨rfl, rfl, rfl⟩,
   fun _ _ _ _ _ => ⟨rfl, rfl, rfl⟩⟩

/-- C10: every public drawing entry point accepts a NULL options pointer and
behaves exactly as if the process-wide `defaultOptions` had been passed, and
those defaults show the impedance grid and the rings, hide the admittance
grid, and carry lineWidth 0.25, pointWidth 0.6 and the default color set. -/
theorem claim_C10 :
    (∀ (crM : CMatrix) (cx cy radius : ℝ),
      drawSmithChart crM cx cy radius none
        = drawSmithChart crM cx cy radius (some defaultOptions)) ∧
    (∀ (crM : CMatrix) (uvF uvT : tUV),
      drawLineOnSmithChart crM uvF uvT none
        = drawLineOnSmithChart crM uvF uvT (some defaultOptions)) ∧
    (∀ (crM : CMatrix) (pts : List tUV),
      drawLineArrayOnSmithChart crM pts none
        = drawLineArrayOnSmithChart crM pts (some defaultOptions)) ∧
    (∀ (crM : CMatrix) (pts : List tUV),
      drawBezierCurveOnSmithChart crM pts none
        = drawBezierCurveOnSmithChart crM pts (some defaultOptions)) ∧
    (∀ (crM : CMatrix) (uv : tUV),
      drawPointOnSmithChart crM uv none
        = drawPointOnSmithChart crM uv (some defaultOptions)) ∧
    (∀ (crM : CMatrix) (s : String) (uv : tUV) (bLeft : Bool),
      annotatePointOnSmithChart crM s uv bLeft none
        = annotatePointOnSmithChart crM s uv bLeft (some defaultOptions)) ∧
    defaultOptions.flags.bShowRX = true ∧
    defaultOptions.flags.bShowGB = false ∧
    defaultOptions.flags.bDrawRing = true ∧
    defaultOptions.lineWidth = 0.25 ∧
    defaultOptions.pointWidth = 0.6 ∧
    defaultOptions.colorRXgrid = ⟨0.7, 0.0, 0.0, 1.0⟩ ∧
    defaultOptions.colorGBgrid = ⟨0.0, 0.5, 0.5, 1.0⟩ ∧
    defaultOptions.colorRXtext = ⟨0.5, 0.0, 0.0, 1.0⟩ ∧
    defaultOptions.colorGBtext = ⟨0.0, 0.5, 0.5, 1.0⟩ ∧
    defaultOptions.colorRing = ⟨0.0, 0.0, 0.0, 1.0⟩ ∧
    defaultOptions.colorLine = ⟨0.0, 0.0, 0.5, 1.0⟩ ∧
    defaultOptions.colorAnnotate = ⟨0.0, 0.5, 0.0, 1.0⟩ :=
  ⟨fun _ _ _ _ => rfl, fun _ _ _ => rfl, fun _ _ => rfl, fun _ _ => rfl,
   fun _ _ => rfl, fun _ _ _ _ => rfl,
   rfl, rfl, rfl, rfl, rfl, rfl, rfl, rfl, rfl, rfl, rfl, rfl⟩

/-- C atan2 against the positive x axis is the one-argument arctangent. -/
theorem atan2_of_one (t : ℝ) : atan2 t 1 = Real.arctan t := by
  unfold atan2
  rw [Complex.arg_of_re_nonneg (by norm_num)]
  rw [Complex.abs_apply, Complex.normSq_mk]
  rw [Real.arctan_eq_arcsin]
  rw [show (1 : ℝ) * 1 + t * t = 1 + t ^ 2 by ring]

/-- Closed form of the transcendental scale solve at 90 degrees: for
`0 < u < rho` the returned radial distance is `sqrt(rho^2 - u^2)`, the
distance from `(-u, 0)` to the ring circle along the vertical radial. -/
theorem findTCradial_ninety (u ρ : ℝ) (hu : 0 < u) (huρ : u < ρ) :
    findTCradial 90 u ρ = Real.sqrt (ρ ^ 2 - u ^ 2) := by
  have hρ : 0 < ρ := hu.trans huρ
  have hd : DEGtoRAD 90 = Real.pi / 2 := by rw [DEGtoRAD]; ring
  have ht0 : 0 < u / ρ := by positivity
  have ht1 : u / ρ < 1 := (div_lt_one hρ).mpr huρ
  simp only [findTCradial, hd, Real.sin_pi_div_two, one_mul, div_one,
    show (1.0 : ℝ) = 1 from by norm_num]
  rw [show u / ρ * (u / ρ) = (u / ρ) ^ 2 by ring]
  rw [atan2_of_one]
  rw [← Real.arcsin_eq_arctan (by constructor <;> [linarith; exact ht1])]
  rw [show Real.pi - Real.pi / 2 - Real.arcsin (u / ρ) =
        Real.pi / 2 - Real.arcsin (u / ρ) by ring]
  rw [Real.sin_pi_div_two_sub, Real.cos_arcsin]
  have hmul : (1 - (u / ρ) ^ 2) * ρ ^ 2 = ρ ^ 2 - u ^ 2 := by
    field_simp
  rw [← hmul, Real.sqrt_mul (by nlinarith), Real.sqrt_sq hρ.le]

/-- C4, counterexample: with the chart's unit radius 1 and angle-ring radius
1.038, the solve at 90 degrees returns `sqrt(1.038^2 - 1) ~ 0.278`, which is
below 1/2 and hence not equal to the unit radius within any floating
tolerance. -/
theorem claim_C4_counterexample : findTCradial 90 1 1.038 < 1/2 := by
  rw [findTCradial_ninety 1 1.038 (by norm_num) (by norm_num)]
  rw [Real.sqrt_lt' (by norm_num)]
  norm_num

/-- C4, amended: `findTCradial(90, unitRadius, ringRadius)` equals
`sqrt(ringRadius^2 - unitRadius^2)` (for `0 < unitRadius < ringRadius`), the
distance from the `(-unitRadius, 0)` viewpoint to the angle ring along the
vertical — about `0.278` for the chart's radii, not `unitRadius`. -/
theorem claim_C4_amended (u ρ : ℝ) (hu : 0 < u) (huρ : u < ρ) :
    findTCradial 90 u ρ = Real.sqrt (ρ ^ 2 - u ^ 2) :=
  findTCradial_ninety u ρ hu huρ

/-- C4, witness: the amended theorem applied at `u = 1, rho = 2`. -/
theorem claim_C4_witness :
    (0 : ℝ) < 1 ∧ (1 : ℝ) < 2 ∧ findTCradial 90 1 2 = Real.sqrt (2 ^ 2 - 1 ^ 2) :=
  ⟨by norm_num, by norm_num, claim_C4_amended 1 2 (by norm_num) (by norm_num)⟩

/-- Recovery of a displacement from its atan2 angle: if `(dx, dy)` lies at
distance `rho` from the origin, then `rho * cos/sin` of `atan2 dy dx` gives
back `dx` and `dy` — so a cairo arc through that angle passes through the
point. -/
theorem cos_sin_recovery (dx dy ρ : ℝ) (hρ : 0 < ρ) (hd : dx ^ 2 + dy ^ 2 = ρ ^ 2) :
    ρ * Real.cos (atan2 dy dx) = dx ∧ ρ * Real.sin (atan2 dy dx) = dy := by
  have habs : Complex.abs ⟨dx, dy⟩ = ρ := by
    rw [Complex.abs_apply, Complex.normSq_mk]
    rw [show dx * dx + dy * dy = dx ^ 2 + dy ^ 2 by ring, hd]
    exact Real.sqrt_sq hρ.le
  have hc := Complex.abs_mul_cos_arg (⟨dx, dy⟩ : ℂ)
  have hs := Complex.abs_mul_sin_arg (⟨dx, dy⟩ : ℂ)
  rw [habs] at hc hs
  exact ⟨hc, hs⟩

/-- The transform of `(r, x)` lies on the circle used by the resistance-arc
generator: squared distance `(1/(r+1))^2` from the center `(r/(r+1), 0)`. -/
theorem rcircle_dist (r x : ℝ) (hr : -1 < r) :
    ((RXtoUV ⟨r, x⟩).U - r / (r + 1.0)) ^ 2 + (RXtoUV ⟨r, x⟩).V ^ 2
      = (1.0 / (r + 1.0)) ^ 2 := by
  have hr0 : (0 : ℝ) < r + 1 := by linarith
  have hr1 : r + 1.0 ≠ 0 := by
    norm_num
    intro hc
    linarith
  have hD : r * r + x * x + r * 2.0 + 1.0 ≠ 0 := by
    have := mul_pos hr0 hr0
    nlinarith [sq_nonneg x]
  simp only [RXtoUV, Zplus1_magSqu, SQU]
  field_simp
  ring

/-- The transform of `(r, x)` lies on the circle used by the reactance-arc
generator: squared distance `(1/x)^2` from the center `(1, 1/x)`. -/
theorem xcircle_dist (r x : ℝ) (hx : x ≠ 0) (hD : Zplus1_magSqu ⟨r, x⟩ ≠ 0) :
    ((RXtoUV ⟨r, x⟩).U - 1.0) ^ 2 + ((RXtoUV ⟨r, x⟩).V - 1.0 / x) ^ 2
      = (1.0 / x) ^ 2 := by
  have hD2 : r * r + x * x + r * 2.0 + 1.0 ≠ 0 := by
    simpa [Zplus1_magSqu, SQU] using hD
  simp only [RXtoUV, Zplus1_magSqu, SQU]
  field_simp
  ring

/-- C3: for every `rArc > -1` and every reactance `x`, the transformed point
lies exactly on the resistance-arc circle (distance `1/(rArc+1)` from
`(rArc/(rArc+1), 0)`), `angleR` is exactly the atan2 of the transformed point
relative to that analytic center, and the arc emitted by `drawRarc` passes
through its transformed endpoints; symmetrically for `xArc != 0` (with
nonvanishing denominators) the point lies at distance `|1/xArc|` from
`(1, 1/xArc)`, `angleX` is the direct atan2 against that center, and the
`drawXarc` arc passes through its transformed endpoints. -/
theorem claim_C3 :
    (∀ rArc x xTo : ℝ, -1 < rArc →
      (((RXtoUV ⟨rArc, x⟩).U - rArc / (rArc + 1.0)) ^ 2 + (RXtoUV ⟨rArc, x⟩).V ^ 2
          = (1.0 / (rArc + 1.0)) ^ 2) ∧
      angleR ⟨rArc, x⟩
          = atan2 (RXtoUV ⟨rArc, x⟩).V ((RXtoUV ⟨rArc, x⟩).U - rArc / (rArc + 1.0)) ∧
      arcStartPoint (drawRarcSpec rArc x xTo) = RXtoUV ⟨rArc, x⟩ ∧
      arcEndPoint (drawRarcSpec rArc x xTo) = RXtoUV ⟨rArc, xTo⟩) ∧
    (∀ xArc r rTo : ℝ, xArc ≠ 0 →
      Zplus1_magSqu ⟨r, xArc⟩ ≠ 0 → Zplus1_magSqu ⟨rTo, xArc⟩ ≠ 0 →
      (((RXtoUV ⟨r, xArc⟩).U - 1.0) ^ 2 + ((RXtoUV ⟨r, xArc⟩).V - 1.0 / xArc) ^ 2
          = (1.0 / xArc) ^ 2) ∧
      angleX ⟨r, xArc⟩
          = atan2 ((RXtoUV ⟨r, xArc⟩).V - 1.0 / xArc) ((RXtoUV ⟨r, xArc⟩).U - 1.0) ∧
      arcStartPoint (drawXarcSpec xArc r rTo) = RXtoUV ⟨r, xArc⟩ ∧
      arcEndPoint (drawXarcSpec xArc r rTo) = RXtoUV ⟨rTo, xArc⟩) := by
  refine ⟨fun rArc x xTo hr => ?_, fun xArc r rTo hx hD1 hD2 => ?_⟩
  · have hr1 : (0 : ℝ) < rArc + 1.0 := by linarith
    have hρ : (0 : ℝ) < 1.0 / (rArc + 1.0) := by positivity
    have hrec1 := cos_sin_recovery ((RXtoUV ⟨rArc, x⟩).U - rArc / (rArc + 1.0))
      ((RXtoUV ⟨rArc, x⟩).V) (1.0 / (rArc + 1.0)) hρ (rcircle_dist rArc x hr)
    have hrec2 := cos_sin_recovery ((RXtoUV ⟨rArc, xTo⟩).U - rArc / (rArc + 1.0))
      ((RXtoUV ⟨rArc, xTo⟩).V) (1.0 / (rArc + 1.0)) hρ (rcircle_dist rArc xTo hr)
    refine ⟨rcircle_dist rArc x hr, rfl, ?_, ?_⟩
    · refine tUV.ext ?_ ?_ <;>
        simp only [arcStartPoint, drawRarcSpec, angleR] <;>
        [linarith [hrec1.1]; linarith [hrec1.2]]
    · refine tUV.ext ?_ ?_ <;>
        simp only [arcEndPoint, drawRarcSpec, angleR] <;>
        [linarith [hrec2.1]; linarith [hrec2.2]]
  · have hinv : (1.0 : ℝ) / xArc ≠ 0 := div_ne_zero (by norm_num) hx
    have hρ : (0 : ℝ) < |1.0 / xArc| := abs_pos.mpr hinv
    have hd1 : ((RXtoUV ⟨r, xArc⟩).U - 1.0) ^ 2 +
        ((RXtoUV ⟨r, xArc⟩).V - 1.0 / xArc) ^ 2 = |1.0 / xArc| ^ 2 := by
      rw [sq_abs]; exact xcircle_dist r xArc hx hD1
    have hd2 : ((RXtoUV ⟨rTo, xArc⟩).U - 1.0) ^ 2 +
        ((RXtoUV ⟨rTo, xArc⟩).V - 1.0 / xArc) ^ 2 = |1.0 / xArc| ^ 2 := by
      rw [sq_abs]; exact xcircle_dist rTo xArc hx hD2
    have hrec1 := cos_sin_recovery ((RXtoUV ⟨r, xArc⟩).U - 1.0)
      ((RXtoUV ⟨r, xArc⟩).V - 1.0 / xArc) (|1.0 / xArc|) hρ hd1
    have hrec2 := cos_sin_recovery ((RXtoUV ⟨rTo, xArc⟩).U - 1.0)
      ((RXtoUV ⟨rTo, xArc⟩).V - 1.0 / xArc) (|1.0 / xArc|) hρ hd2
    refine ⟨xcircle_dist r xArc hx hD1, rfl, ?_, ?_⟩
    · refine tUV.ext ?_ ?_ <;>
        simp only [arcStartPoint, drawXarcSpec, angleX] <;>
        [linarith [hrec1.1]; linarith [hrec1.2]]
    · refine tUV.ext ?_ ?_ <;>
        simp only [arcEndPoint, drawXarcSpec, angleX] <;>
        [linarith [hrec2.1]; linarith [hrec2.2]]

/-- C3, witness: the theorem applied at the concrete resistance arc
`rArc = 1` between reactances 1 and 2, and the concrete reactance arc
`xArc = 1` between resistances 1 and 2. -/
theorem claim_C3_witness :
    ((-1 : ℝ) < 1) ∧ ((1 : ℝ) ≠ 0) ∧
    Zplus1_magSqu ⟨1, 1⟩ ≠ 0 ∧ Zplus1_magSqu ⟨2, 1⟩ ≠ 0 ∧
    ((((RXtoUV ⟨1, 1⟩).U - 1 / (1 + 1.0)) ^ 2 + (RXtoUV ⟨1, 1⟩).V ^ 2
        = (1.0 / (1 + 1.0)) ^ 2) ∧
      angleR ⟨1, 1⟩ = atan2 (RXtoUV ⟨1, 1⟩).V ((RXtoUV ⟨1, 1⟩).U - 1 / (1 + 1.0)) ∧
      arcStartPoint (drawRarcSpec 1 1 2) = RXtoUV ⟨1, 1⟩ ∧
      arcEndPoint (drawRarcSpec 1 1 2) = RXtoUV ⟨1, 2⟩) ∧
    ((((RXtoUV ⟨1, 1⟩).U - 1.0) ^ 2 + ((RXtoUV ⟨1, 1⟩).V - 1.0 / 1) ^ 2
        = (1.0 / 1) ^ 2) ∧
      angleX ⟨1, 1⟩ = atan2 ((RXtoUV ⟨1, 1⟩).V - 1.0 / 1) ((RXtoUV ⟨1, 1⟩).U - 1.0) ∧
      arcStartPoint (drawXarcSpec 1 1 2) = RXtoUV ⟨1, 1⟩ ∧
      arcEndPoint (drawXarcSpec 1 1 2) = RXtoUV ⟨2, 1⟩) :=
  ⟨by norm_num, by norm_num,
   by simp only [Zplus1_magSqu, SQU]; norm_num,
   by simp only [Zplus1_magSqu, SQU]; norm_num,
   claim_C3.1 1 1 2 (by norm_num),
   claim_C3.2 1 1 2 (by norm_num)
     (by simp only [Zplus1_magSqu, SQU]; norm_num)
     (by simp only [Zplus1_magSqu, SQU]; norm_num)⟩

/-- Control point 2 of the fitter depends on the predecessor line only
through its endpoint `g.B`, never through `g.A` (evident from the source:
`p2` is built from `lgt`, `l` and `h.A = g->B`). -/
theorem bezierControlPoints_snd_indep (a a2 b : tUV) (l : tLine) :
    (bezierControlPoints ⟨a, b⟩ l).2 = (bezierControlPoints ⟨a2, b⟩ l).2 := rfl

/-- Control point 1 of the fitter depends on the successor line only through
its start `l.A`, never through `l.B`. -/
theorem bezierControlPoints_fst_indep (g : tLine) (a b b2 : tUV) :
    (bezierControlPoints g ⟨a, b⟩).1 = (bezierControlPoints g ⟨a, b2⟩).1 := rfl

/-- Per-segment agreement of the wrapped-index fitter with the clamped-index
reference fitter: the wrapped neighbors feed only control points that the
first/last-segment overrides discard. -/
theorem bezierSegAt_eq_clamped (pts : List tUV) (i : ℕ)
    (hn2 : 2 ≤ pts.length) (h1 : 1 ≤ i) (hi : i ≤ pts.length - 1) :
    bezierSegAt pts i = bezierSegClampedAt pts i := by
  have hin : i < pts.length := by omega
  have hA : (i + pts.length) % pts.length = i := by
    rw [Nat.add_mod_right]
    exact Nat.mod_eq_of_lt hin
  have hB : (i + pts.length - 1) % pts.length = i - 1 := by
    have h : i + pts.length - 1 = (i - 1) + pts.length := by omega
    rw [h, Nat.add_mod_right]
    exact Nat.mod_eq_of_lt (by omega)
  refine BezierSeg.ext ?_ ?_ ?_
  · simp only [bezierSegAt, bezierSegClampedAt]
    by_cases hi1 : i = 1
    · simp only [if_pos hi1, hB]
    · simp only [if_neg hi1]
      have hG : (i + pts.length - 2) % pts.length = i - 2 := by
        have h : i + pts.length - 2 = (i - 2) + pts.length := by omega
        rw [h, Nat.add_mod_right]
        exact Nat.mod_eq_of_lt (by omega)
      by_cases hil : i = pts.length - 1
      · have hL : (i + pts.length + 1) % pts.length = 0 := by
          have h : i + pts.length + 1 = pts.length + pts.length := by omega
          rw [h, Nat.add_mod_right, Nat.mod_self]
        have hmin : min (i + 1) (pts.length - 1) = pts.length - 1 := by omega
        simp only [hG, hL, hA, hB, hmin]
        exact bezierControlPoints_fst_indep _ _ _ _
      · have hL : (i + pts.length + 1) % pts.length = i + 1 := by
          have h : i + pts.length + 1 = (i + 1) + pts.length := by omega
          rw [h, Nat.add_mod_right]
          exact Nat.mod_eq_of_lt (by omega)
        have hmin : min (i + 1) (pts.length - 1) = i + 1 := by omega
        simp only [hG, hL, hA, hB, hmin]
  · simp only [bezierSegAt, bezierSegClampedAt]
    by_cases hil : i = pts.length - 1
    · simp only [if_pos hil, hA]
    · simp only [if_neg hil]
      have hL : (i + pts.length + 1) % pts.length = i + 1 := by
        have h : i + pts.length + 1 = (i + 1) + pts.length := by omega
        rw [h, Nat.add_mod_right]
        exact Nat.mod_eq_of_lt (by omega)
      have hmin : min (i + 1) (pts.length - 1) = i + 1 := by omega
      by_cases hi1 : i = 1
      · have hG : (i + pts.length - 2) % pts.length = pts.length - 1 := by
          have h : i + pts.length - 2 = pts.length - 1 := by omega
          rw [h]
          exact Nat.mod_eq_of_lt (by omega)
        simp only [hG, hL, hA, hB, hmin]
        exact bezierControlPoints_snd_indep _ _ _ _
      · have hG : (i + pts.length - 2) % pts.length = i - 2 := by
          have h : i + pts.length - 2 = (i - 2) + pts.length := by omega
          rw [h, Nat.add_mod_right]
          exact Nat.mod_eq_of_lt (by omega)
        simp only [hG, hL, hA, hB, hmin]
  · simp only [bezierSegAt, bezierSegClampedAt]

/-- C6: for every sequence of at least 2 points, the cubic segments emitted
by the curve fitter coincide with those of the non-cyclic reference fitter
whose out-of-range neighbor indices are clamped instead of wrapped modulo the
length — wrapping is index arithmetic only and never geometric. -/
theorem claim_C6 (pts : List tUV) (h : 2 ≤ pts.length) :
    bezierSegments pts = bezierSegmentsClamped pts := by
  unfold bezierSegments bezierSegmentsClamped
  apply List.map_congr_left
  intro j hj
  rw [List.mem_range] at hj
  exact bezierSegAt_eq_clamped pts (j + 1) h (by omega) (by omega)

/-- C6, witness: the theorem applied to a concrete 3-point sequence. -/
theorem claim_C6_witness :
    2 ≤ ([⟨0, 0⟩, ⟨1, 0⟩, ⟨0, 1⟩] : List tUV).length ∧
    bezierSegments [(⟨0, 0⟩ : tUV), ⟨1, 0⟩, ⟨0, 1⟩]
      = bezierSegmentsClamped [(⟨0, 0⟩ : tUV), ⟨1, 0⟩, ⟨0, 1⟩] :=
  ⟨by simp, claim_C6 _ (by simp)⟩

end SmithChart
